import Mathlib

/-!
Verification of the Deribit mark-price / settlement-reconciliation repository.

The Python sources are shallowly embedded:
* numeric values are modelled as rationals (`ℚ`) where the code only compares,
  adds, multiplies and divides, and as reals (`ℝ`) where the code applies
  transcendental functions (`math.exp`, `math.log`, `math.sqrt`, `math.erf`);
* dictionary fields that may be absent are `Option` values; Python truthiness
  of a float field (`if bid ...`) is "present and nonzero";
* functions whose Python counterpart may raise return `Except`; functions whose
  Python counterpart catches every exception and returns `None` return `Option`.
-/

namespace Deribit

/-! ## task1/mark_price_calculator.py: compute_mid_price -/

/-- One order-book snapshot (`order_book.get(...)` fields used by
`compute_mid_price` in `task1/mark_price_calculator.py`). -/
structure OrderBook where
  best_bid_price : Option ℚ
  best_ask_price : Option ℚ
  last_price : Option ℚ
  settlement_price : Option ℚ
  min_price : Option ℚ
  max_price : Option ℚ
deriving DecidableEq

/-- Python truthiness of a possibly-absent float: `None` and `0.0` are falsy. -/
def truthyQ (o : Option ℚ) : Bool :=
  match o with
  | none => false
  | some x => decide (x ≠ 0)

/-- Test `o > 0` on a possibly-absent float. In `compute_mid_price` this test is only
reached after a truthiness test on the same value, so the `none` branch mirrors
Python's short-circuit (it is never the deciding factor). -/
def posQ (o : Option ℚ) : Bool :=
  match o with
  | none => false
  | some x => decide (0 < x)

/-- Rules 3—5 of `compute_mid_price`: last traded price, then settlement price,
then the min/max average (both present and strictly positive). -/
def mid_tail (ob : OrderBook) : Option ℚ :=
  match ob.last_price with
  | some l => some l
  | none =>
    match ob.settlement_price with
    | some s => some s
    | none =>
      match ob.min_price, ob.max_price with
      | some mn, some mx => if 0 < mn ∧ 0 < mx then some ((mn + mx) / 2) else none
      | _, _ => none

/-- Function `compute_mid_price` (task1/mark_price_calculator.py, lines 4—56): the
ordered fallback chain.  `bid and ask and bid > 0 and ask > 0` is the Python
guard of rule 1; `bid and bid > 0` / `ask and ask > 0` are rule 2.  The
`try/except` around the body can only fire on inputs that are not floats at
all, which the typed embedding excludes. -/
def compute_mid_price (ob : OrderBook) : Option ℚ :=
  let bid := ob.best_bid_price
  let ask := ob.best_ask_price
  if truthyQ bid && truthyQ ask && posQ bid && posQ ask then
    some ((bid.getD 0 + ask.getD 0) / 2)
  else if truthyQ bid && posQ bid then bid
  else if truthyQ ask && posQ ask then ask
  else mid_tail ob

/-- Keep a possibly-absent float only when it is present and strictly
positive.  Used to phrase the specification's "present and strictly positive"
side conditions for bid/ask. -/
def posOf (o : Option ℚ) : Option ℚ :=
  o.bind (fun x => if 0 < x then some x else none)

/-- The fallback chain exactly as the specification words it (`estimate_mid`):
mean of bid/ask when both are present and strictly positive; else the unique
positive side; else rules 3—5 (which the specification words identically to the
code). -/
def estimate_mid_spec (ob : OrderBook) : Option ℚ :=
  match posOf ob.best_bid_price, posOf ob.best_ask_price with
  | some b, some a => some ((b + a) / 2)
  | some b, none => some b
  | none, some a => some a
  | none, none => mid_tail ob

/-- Order book with `bid = 100`, `ask = 102` and nothing else. -/
def obBidAsk : OrderBook := ⟨some 100, some 102, none, none, none, none⟩

/-- Order book with only `last_price = 50`. -/
def obLastOnly : OrderBook := ⟨none, none, some 50, none, none, none⟩

/-- Completely empty order book. -/
def obEmpty : OrderBook := ⟨none, none, none, none, none, none⟩

lemma compute_mid_price_eq_spec (ob : OrderBook) :
    compute_mid_price ob = estimate_mid_spec ob := by
  rcases ob with ⟨b, a, l, s, mn, mx⟩
  rcases b with _ | b <;> rcases a with _ | a
  · rfl
  · by_cases ha : 0 < a
    · simp [compute_mid_price, estimate_mid_spec, posOf, truthyQ, posQ, ha, ne_of_gt ha]
    · simp [compute_mid_price, estimate_mid_spec, posOf, truthyQ, posQ, ha]
  · by_cases hb : 0 < b
    · simp [compute_mid_price, estimate_mid_spec, posOf, truthyQ, posQ, hb, ne_of_gt hb]
    · simp [compute_mid_price, estimate_mid_spec, posOf, truthyQ, posQ, hb]
  · by_cases hb : 0 < b <;> by_cases ha : 0 < a
    · simp [compute_mid_price, estimate_mid_spec, posOf, truthyQ, posQ,
        hb, ha, ne_of_gt hb, ne_of_gt ha]
    · simp [compute_mid_price, estimate_mid_spec, posOf, truthyQ, posQ,
        hb, ha, ne_of_gt hb]
    · simp [compute_mid_price, estimate_mid_spec, posOf, truthyQ, posQ,
        hb, ha, ne_of_gt ha]
    · simp [compute_mid_price, estimate_mid_spec, posOf, truthyQ, posQ, hb, ha]

/-- C1: `compute_mid_price` implements the specification's fallback chain
(`estimate_mid`) in strict order with the first applicable rule winning, and
the three concrete vectors from the specification hold: bid=100/ask=102 gives
101, only last_price=50 gives 50, and the empty book gives null. -/
theorem c1_mid_price_fallback_chain :
    (∀ ob : OrderBook, compute_mid_price ob = estimate_mid_spec ob) ∧
    compute_mid_price obBidAsk = some 101 ∧
    compute_mid_price obLastOnly = some 50 ∧
    compute_mid_price obEmpty = none := by
  refine ⟨compute_mid_price_eq_spec, ?_, ?_, ?_⟩
  · norm_num [compute_mid_price, obBidAsk, truthyQ, posQ]
  · norm_num [compute_mid_price, obLastOnly, truthyQ, posQ, mid_tail]
  · rfl

/-! ## task1/mark_price_calculator.py: norm_cdf and compute_black76_mark_price -/

/-- A ticker snapshot as consumed by `compute_black76_mark_price`
(`ticker.get(...)` fields).  `interest_rate` and `mark_iv` default to `0.0`
through `.get(key, 0.0)` when absent. -/
structure Ticker where
  underlying_price : Option ℚ
  interest_rate : Option ℚ
  mark_iv : Option ℚ
  timestamp : Option ℚ
deriving DecidableEq

/-- Instrument metadata as consumed by `compute_black76_mark_price`. -/
structure InstData where
  strike : Option ℚ
  option_type : Option String
  expiration_timestamp : Option ℚ
deriving DecidableEq

/-- Function `norm_cdf` (task1/mark_price_calculator.py, lines 59—60):
`0.5 * (1 + math.erf(x / math.sqrt(2)))`.  `math.erf` belongs to the external
maths library, so the embedding takes it as a parameter; theorems assume only
analytic facts true of the real error function (oddness, strict monotonicity,
range inside (-1, 1)). -/
noncomputable def norm_cdf (erf : ℝ → ℝ) (x : ℝ) : ℝ :=
  0.5 * (1 + erf (x / Real.sqrt 2))

/-- Time to expiry in years:
`max((t_exp - t_now) / 1000 / 60 / 60 / 24 / 365, 1e-8)`. -/
def b76_T (t_now t_exp : ℚ) : ℚ :=
  max ((t_exp - t_now) / 1000 / 60 / 60 / 24 / 365) (1 / 100000000)

/-- Forward price `F = S * math.exp(r * T)`. -/
noncomputable def b76_forward (S r T : ℝ) : ℝ := S * Real.exp (r * T)

/-- Quantity `d1 = (math.log(F / K) + 0.5 * sigma ** 2 * T) / (sigma * math.sqrt(T))`. -/
noncomputable def b76_d1 (S K r sigma T : ℝ) : ℝ :=
  (Real.log (b76_forward S r T / K) + 0.5 * sigma ^ 2 * T) / (sigma * Real.sqrt T)

/-- Quantity `d2 = d1 - sigma * math.sqrt(T)`. -/
noncomputable def b76_d2 (S K r sigma T : ℝ) : ℝ :=
  b76_d1 S K r sigma T - sigma * Real.sqrt T

/-- Quantity `discount = math.exp(-r * T)`. -/
noncomputable def b76_discount (r T : ℝ) : ℝ := Real.exp (-r * T)

/-- The call branch, already divided by spot as in `return price / S`:
`discount * (F * norm_cdf(d1) - K * norm_cdf(d2)) / S`. -/
noncomputable def b76_call (erf : ℝ → ℝ) (S K r sigma T : ℝ) : ℝ :=
  b76_discount r T * (b76_forward S r T * norm_cdf erf (b76_d1 S K r sigma T)
    - K * norm_cdf erf (b76_d2 S K r sigma T)) / S

/-- The put branch, already divided by spot:
`discount * (K * norm_cdf(-d2) - F * norm_cdf(-d1)) / S`. -/
noncomputable def b76_put (erf : ℝ → ℝ) (S K r sigma T : ℝ) : ℝ :=
  b76_discount r T * (K * norm_cdf erf (-(b76_d2 S K r sigma T))
    - b76_forward S r T * norm_cdf erf (-(b76_d1 S K r sigma T))) / S

/-- Function `compute_black76_mark_price` (task1/mark_price_calculator.py, lines
63—104).  A missing numeric field makes `float(None)` raise, which the
surrounding `try/except` converts to `None`: that is the outer `match`.
The validity guard and the option-type dispatch follow the source line by
line; the result is the Black-76 price normalised by the spot. -/
noncomputable def compute_black76_mark_price (erf : ℝ → ℝ)
    (ticker : Ticker) (inst_data : InstData) : Option ℝ :=
  match ticker.underlying_price, inst_data.strike,
        ticker.timestamp, inst_data.expiration_timestamp with
  | some S, some K, some t_now, some t_exp =>
    let r : ℚ := ticker.interest_rate.getD 0
    let sigma : ℚ := ticker.mark_iv.getD 0 / 100
    let T : ℚ := b76_T t_now t_exp
    if S ≤ 0 ∨ K ≤ 0 ∨ sigma ≤ 0 ∨ T ≤ 0 then none
    else if inst_data.option_type = some "call" then
      some (b76_call erf S K r sigma T)
    else if inst_data.option_type = some "put" then
      some (b76_put erf S K r sigma T)
    else none
  | _, _, _, _ => none

/-- Test `x ≤ 0` on a present float; `false` when absent. -/
def optNonposQ (o : Option ℚ) : Bool :=
  match o with
  | none => false
  | some x => decide (x ≤ 0)

/-- Inputs on which `compute_black76_mark_price` must return `None`: a missing
required numeric field (the caught `TypeError` of `float(None)`), a
non-positive spot/strike/vol (the validity guard), or an option type other
than `"call"`/`"put"`. -/
def black76_invalid (ticker : Ticker) (inst_data : InstData) : Bool :=
  ticker.underlying_price.isNone || inst_data.strike.isNone ||
  ticker.timestamp.isNone || inst_data.expiration_timestamp.isNone ||
  optNonposQ ticker.underlying_price || optNonposQ inst_data.strike ||
  decide (ticker.mark_iv.getD 0 / 100 ≤ 0) ||
  (!(inst_data.option_type == some "call") && !(inst_data.option_type == some "put"))

/-- C5: on every invalid input — a required field missing (so that `float`
raises and the `except` fires), `S ≤ 0`, `K ≤ 0`, `sigma ≤ 0`, or an option
type that is neither `"call"` nor `"put"` — the pricer returns `None`.  (The
computed `T` is clamped to at least `1e-8`, so `T ≤ 0` never occurs.)  The
function is total with values in `Option ℝ`, so no exception can propagate. -/
theorem c5_black76_invalid_returns_none (erf : ℝ → ℝ) (t : Ticker) (i : InstData)
    (h : black76_invalid t i = true) :
    compute_black76_mark_price erf t i = none := by
  rcases ht : t.underlying_price with _ | S
  · simp [compute_black76_mark_price, ht]
  rcases hk : i.strike with _ | K
  · simp [compute_black76_mark_price, ht, hk]
  rcases htn : t.timestamp with _ | t_now
  · simp [compute_black76_mark_price, ht, hk, htn]
  rcases hte : i.expiration_timestamp with _ | t_exp
  · simp [compute_black76_mark_price, ht, hk, htn, hte]
  simp only [black76_invalid, ht, hk, htn, hte, optNonposQ, Option.isNone_none,
    Option.isNone_some, Bool.false_or, Bool.or_eq_true, Bool.and_eq_true,
    Bool.not_eq_true', beq_eq_false_iff_ne, ne_eq, decide_eq_true_eq] at h
  simp only [compute_black76_mark_price, ht, hk, htn, hte]
  rcases h with ((hS | hK) | hsig) | ⟨hc, hp⟩
  · rw [if_pos (Or.inl hS)]
  · rw [if_pos (Or.inr (Or.inl hK))]
  · rw [if_pos (Or.inr (Or.inr (Or.inl hsig)))]
  · by_cases hg : S ≤ 0 ∨ K ≤ 0 ∨ t.mark_iv.getD 0 / 100 ≤ 0 ∨ b76_T t_now t_exp ≤ 0
    · rw [if_pos hg]
    · rw [if_neg hg, if_neg hc, if_neg hp]

/-- Ticker `{"underlying_price": 100, "mark_iv": 50, "timestamp": 0}` with the
interest rate absent (defaulting to 0), so `S = 100`, `r = 0`,
`sigma = 0.5`. -/
def tickerC4 : Ticker := ⟨some 100, none, some 50, some 0⟩

/-- Instrument `{"strike": 100, "option_type": "call",
"expiration_timestamp": 3153600000}`: one tenth of a year after the ticker
timestamp, so `T = 0.1`. -/
def instC4 : InstData := ⟨some 100, some "call", some 3153600000⟩

lemma b76_T_pos (t_now t_exp : ℚ) : 0 < b76_T t_now t_exp :=
  lt_max_iff.mpr (Or.inr (by norm_num))

lemma norm_cdf_neg_eq (erf : ℝ → ℝ) (hodd : ∀ x, erf (-x) = -erf x) (x : ℝ) :
    norm_cdf erf (-x) = 1 - norm_cdf erf x := by
  unfold norm_cdf
  rw [neg_div, hodd]
  ring

lemma norm_cdf_mem_Ioo (erf : ℝ → ℝ) (hbound : ∀ x, |erf x| < 1) (x : ℝ) :
    0 < norm_cdf erf x ∧ norm_cdf erf x < 1 := by
  have h := abs_lt.1 (hbound (x / Real.sqrt 2))
  unfold norm_cdf
  constructor <;> nlinarith [h.1, h.2]

lemma norm_cdf_lt_of_lt (erf : ℝ → ℝ) (hmono : StrictMono erf) {x y : ℝ}
    (hxy : x < y) : norm_cdf erf x < norm_cdf erf y := by
  unfold norm_cdf
  have h2 : (0 : ℝ) < Real.sqrt 2 := Real.sqrt_pos.mpr (by norm_num)
  have := hmono ((div_lt_div_iff_of_pos_right h2).mpr hxy)
  linarith

lemma b76_parity (erf : ℝ → ℝ) (hodd : ∀ x, erf (-x) = -erf x)
    (S K r sigma T : ℝ) :
    b76_call erf S K r sigma T - b76_put erf S K r sigma T
      = b76_discount r T * (b76_forward S r T - K) / S := by
  unfold b76_call b76_put
  rw [div_sub_div_same]
  congr 1
  rw [norm_cdf_neg_eq erf hodd, norm_cdf_neg_eq erf hodd]
  ring

lemma b76_call_c4_eval (erf : ℝ → ℝ) :
    b76_call erf 100 100 0 (1 / 2) (1 / 10)
      = norm_cdf erf (b76_d1 100 100 0 (1 / 2) (1 / 10))
        - norm_cdf erf (b76_d2 100 100 0 (1 / 2) (1 / 10)) := by
  unfold b76_call b76_discount b76_forward
  norm_num [Real.exp_zero]
  ring

/-- C4: Black-76 put—call parity and the sanity bound.  First, for every
ticker/instrument whose spot, strike and implied vol are present and strictly
positive, the call and the put branch both price, and (given that `erf` is
odd) their difference is `discount * (F - K) / S` with `F = S * exp(r * T)`
and `discount = exp(-r * T)`.  Second, at `S = 100`, `K = 100`, `r = 0`,
`sigma = 0.5`, `T = 0.1`, option type `"call"`, the returned spot-normalised
price lies strictly between 0 and 1 (given that `erf` is strictly increasing
with range inside `(-1, 1)`). -/
theorem c4_black76_parity_and_bounds (erf : ℝ → ℝ)
    (hodd : ∀ x, erf (-x) = -erf x) (hmono : StrictMono erf)
    (hbound : ∀ x, |erf x| < 1)
    (t : Ticker) (i : InstData) (S K t_now t_exp : ℚ)
    (hS : t.underlying_price = some S) (hK : i.strike = some K)
    (htn : t.timestamp = some t_now) (hte : i.expiration_timestamp = some t_exp)
    (hSpos : 0 < S) (hKpos : 0 < K) (hiv : 0 < t.mark_iv.getD 0) :
    (compute_black76_mark_price erf t { i with option_type := some "call" }
      = some (b76_call erf S K (t.interest_rate.getD 0)
          (t.mark_iv.getD 0 / 100) (b76_T t_now t_exp))) ∧
    (compute_black76_mark_price erf t { i with option_type := some "put" }
      = some (b76_put erf S K (t.interest_rate.getD 0)
          (t.mark_iv.getD 0 / 100) (b76_T t_now t_exp))) ∧
    (b76_call erf S K (t.interest_rate.getD 0)
        (t.mark_iv.getD 0 / 100) (b76_T t_now t_exp)
      - b76_put erf S K (t.interest_rate.getD 0)
          (t.mark_iv.getD 0 / 100) (b76_T t_now t_exp)
      = b76_discount (t.interest_rate.getD 0) (b76_T t_now t_exp)
          * (b76_forward S (t.interest_rate.getD 0) (b76_T t_now t_exp) - K) / S) ∧
    (compute_black76_mark_price erf tickerC4 instC4
      = some (b76_call erf 100 100 0 (1 / 2) (1 / 10))) ∧
    0 < b76_call erf 100 100 0 (1 / 2) (1 / 10) ∧
    b76_call erf 100 100 0 (1 / 2) (1 / 10) < 1 := by
  have hsig : (0 : ℚ) < t.mark_iv.getD 0 / 100 := by positivity
  have hguard : ¬(S ≤ 0 ∨ K ≤ 0 ∨ t.mark_iv.getD 0 / 100 ≤ 0
      ∨ b76_T t_now t_exp ≤ 0) := by
    push_neg
    exact ⟨hSpos, hKpos, hsig, b76_T_pos t_now t_exp⟩
  refine ⟨?_, ?_, b76_parity erf hodd _ _ _ _ _, ?_, ?_, ?_⟩
  · simp [compute_black76_mark_price, hS, hK, htn, hte, hguard]
  · simp [compute_black76_mark_price, hS, hK, htn, hte, hguard]
  · have hT : b76_T 0 3153600000 = 1 / 10 := by
      unfold b76_T
      norm_num
    have hguard' : ¬((100 : ℚ) ≤ 0 ∨ (100 : ℚ) ≤ 0
        ∨ ((50 : ℚ) / 100 ≤ 0) ∨ b76_T 0 3153600000 ≤ 0) := by
      rw [hT]
      norm_num
    simp [compute_black76_mark_price, tickerC4, instC4, hguard', hT]
    norm_num
  · rw [b76_call_c4_eval erf]
    have hlt : b76_d2 100 100 0 (1 / 2) (1 / 10) < b76_d1 100 100 0 (1 / 2) (1 / 10) := by
      unfold b76_d2
      have : (0 : ℝ) < (1 / 2) * Real.sqrt (1 / 10) :=
        mul_pos (by norm_num) (Real.sqrt_pos.mpr (by norm_num))
      linarith
    have := norm_cdf_lt_of_lt erf hmono hlt
    linarith
  · rw [b76_call_c4_eval erf]
    have h1 := norm_cdf_mem_Ioo erf hbound (b76_d1 100 100 0 (1 / 2) (1 / 10))
    have h2 := norm_cdf_mem_Ioo erf hbound (b76_d2 100 100 0 (1 / 2) (1 / 10))
    linarith [h1.2, h2.1]

/-- A concrete strictly increasing odd function with range inside `(-1, 1)`,
standing in for the real error function in witnesses:
`x ↦ (2 / pi) * arctan x`. -/
noncomputable def erfW (x : ℝ) : ℝ := 2 / Real.pi * Real.arctan x

lemma erfW_odd (x : ℝ) : erfW (-x) = -erfW x := by
  unfold erfW
  rw [Real.arctan_neg]
  ring

lemma erfW_strictMono : StrictMono erfW :=
  fun _ _ h => by
    unfold erfW
    have hc : (0 : ℝ) < 2 / Real.pi := by positivity
    exact (mul_lt_mul_left hc).mpr (Real.arctan_strictMono h)

lemma erfW_bound (x : ℝ) : |erfW x| < 1 := by
  unfold erfW
  rw [abs_mul, abs_of_pos (show (0 : ℝ) < 2 / Real.pi by positivity)]
  have habs : |Real.arctan x| < Real.pi / 2 :=
    abs_lt.mpr ⟨Real.neg_pi_div_two_lt_arctan x, Real.arctan_lt_pi_div_two x⟩
  have hpi : (0 : ℝ) < Real.pi := Real.pi_pos
  calc 2 / Real.pi * |Real.arctan x| < 2 / Real.pi * (Real.pi / 2) := by
        exact (mul_lt_mul_left (by positivity)).mpr habs
    _ = 1 := by field_simp

/-- Witness for C4: the parity-and-bounds theorem applied at the concrete
ticker/instrument and the concrete erf-like function `erfW`. -/
theorem c4_black76_parity_and_bounds_witness :
    0 < b76_call erfW 100 100 0 (1 / 2) (1 / 10) ∧
    b76_call erfW 100 100 0 (1 / 2) (1 / 10) < 1 := by
  have h := c4_black76_parity_and_bounds erfW erfW_odd erfW_strictMono erfW_bound
    tickerC4 instC4 100 100 0 3153600000 rfl rfl rfl rfl
    (by norm_num) (by norm_num) (by norm_num [tickerC4])
  exact ⟨h.2.2.2.2.1, h.2.2.2.2.2⟩

/-- Witness for C5: the invalid-input theorem applied at a concrete ticker
with `S = -1` (non-positive spot). -/
theorem c5_black76_invalid_returns_none_witness :
    black76_invalid ⟨some (-1), none, some 50, some 0⟩ instC4 = true ∧
    compute_black76_mark_price erfW ⟨some (-1), none, some 50, some 0⟩ instC4 = none := by
  refine ⟨by decide, c5_black76_invalid_returns_none erfW _ _ (by decide)⟩

/-! ## task1/client.py: get_call_put_instruments -/

/-- A raw value found under an instrument's `strike` key: either a number or
something `float()` rejects with `ValueError`/`TypeError`. -/
inductive PyScalar
  | num (q : ℚ)
  | nonnum
deriving DecidableEq

/-- One raw instrument dict as scanned by `get_call_put_instruments`.
`strike = none` models a dict with no `strike` key at all. -/
structure RawInstrument where
  strike : Option PyScalar
  option_type : Option String
  instrument_name : String
deriving DecidableEq

/-- Conversion `float(inst.get("strike", -1))`: a missing key defaults to `-1` (which
converts fine), a numeric value converts to itself, and a non-numeric value
raises, which the `except (ValueError, TypeError): continue` turns into a
skip (`none`). -/
def tryFloatStrike (o : Option PyScalar) : Option ℚ :=
  match o with
  | none => some (-1)
  | some (.num q) => some q
  | some .nonnum => none

/-- Test `diff < bound` where the bound starts at `float('inf')` (`none`). -/
def ltInf (d : ℚ) (bound : Option ℚ) : Bool :=
  match bound with
  | none => true
  | some v => decide (d < v)

/-- Loop state of the scan: closest names and minimal distances so far. -/
structure ScanState where
  closest_call : Option String
  closest_put : Option String
  min_call_diff : Option ℚ
  min_put_diff : Option ℚ
deriving DecidableEq

/-- One iteration of the `for inst in self.instruments` loop in
`get_call_put_instruments` (task1/client.py, lines 91—106): convert the
strike (skipping on conversion failure), take the absolute distance to the
target, and update the call slot on `option_type == "call"` with a strictly
smaller distance, else the put slot likewise. -/
def scan_step (strike : ℚ) (st : ScanState) (inst : RawInstrument) : ScanState :=
  match tryFloatStrike inst.strike with
  | none => st
  | some s =>
    let diff := |s - strike|
    if (inst.option_type == some "call") && ltInf diff st.min_call_diff then
      { st with closest_call := some inst.instrument_name, min_call_diff := some diff }
    else if (inst.option_type == some "put") && ltInf diff st.min_put_diff then
      { st with closest_put := some inst.instrument_name, min_put_diff := some diff }
    else st

/-- Function `get_call_put_instruments`: fold the scan over the instrument list and
return the two closest names. -/
def get_call_put_instruments (instruments : List RawInstrument) (strike : ℚ) :
    Option String × Option String :=
  let final := instruments.foldl (scan_step strike) ⟨none, none, none, none⟩
  (final.closest_call, final.closest_put)

/-- A call instrument whose dict has no `strike` key at all. -/
def instNoStrike : RawInstrument := ⟨none, some "call", "NOSTRIKE-C"⟩

/-- Counterexample to C7: an instrument whose `strike` key is missing is not
skipped — `inst.get("strike", -1)` defaults it to −1, so it is returned as
the closest call (here the only instrument, target strike 100). -/
theorem c7_missing_strike_selected_counterexample :
    instNoStrike.strike = none ∧
    get_call_put_instruments [instNoStrike] 100 = (some "NOSTRIKE-C", none) := by
  constructor
  · rfl
  · norm_num [get_call_put_instruments, scan_step, tryFloatStrike, ltInf, instNoStrike]

lemma scan_foldl_skips_nonconvertible (strike : ℚ) (insts : List RawInstrument)
    (st : ScanState) :
    insts.foldl (scan_step strike) st
      = (insts.filter (fun i => (tryFloatStrike i.strike).isSome)).foldl
          (scan_step strike) st := by
  induction insts generalizing st with
  | nil => rfl
  | cons i rest ih =>
    rcases hc : tryFloatStrike i.strike with _ | s
    · have hstep : scan_step strike st i = st := by
        unfold scan_step
        rw [hc]
      have hfilter : (i :: rest).filter (fun i => (tryFloatStrike i.strike).isSome)
          = rest.filter (fun i => (tryFloatStrike i.strike).isSome) := by
        simp [List.filter, hc]
      rw [List.foldl_cons, hstep, hfilter, ih]
    · have hfilter : (i :: rest).filter (fun i => (tryFloatStrike i.strike).isSome)
          = i :: rest.filter (fun i => (tryFloatStrike i.strike).isSome) := by
        simp [List.filter, hc]
      rw [List.foldl_cons, hfilter, List.foldl_cons, ih]

/-- C7 as amended: instruments whose `strike` value is present but non-numeric
(so that `float` raises) are skipped without aborting the scan and never
influence the result — the scan over any list equals the scan over the
sublist of instruments whose strike converts.  (Instruments whose `strike`
key is absent are NOT skipped: the `-1` default makes them convert, see the
counterexample.) -/
theorem c7_nonnumeric_strikes_never_influence (instruments : List RawInstrument)
    (strike : ℚ) :
    get_call_put_instruments instruments strike
      = get_call_put_instruments
          (instruments.filter (fun i => (tryFloatStrike i.strike).isSome)) strike := by
  unfold get_call_put_instruments
  rw [scan_foldl_skips_nonconvertible]

/-! ## task1/client.py: RPC response handling -/

/-- A parsed JSON-RPC response: the `error` and `result` keys may each be
absent.  (`"error" in response` tests key presence.) -/
structure RpcResponse (α : Type) where
  error : Option String
  result : Option α
deriving DecidableEq

/-- How a response handler can fail: the typed API failure raised after an
explicit `"error" in response` check, or the untyped `KeyError` from indexing
`response["result"]` when that key is absent. -/
inductive RpcFailure
  | apiError (msg : String)
  | keyError
deriving DecidableEq

/-- Response handling of `load_instruments` (task1/client.py, lines 50—74):
check the `error` key and raise a typed failure, else index `result` and keep
the instruments whose name contains the expiry substring. -/
def load_instruments_handle (expiry : String) (resp : RpcResponse (List RawInstrument)) :
    Except RpcFailure (List RawInstrument) :=
  match resp.error with
  | some e => .error (.apiError e)
  | none =>
    match resp.result with
    | some items => .ok (items.filter (fun i => decide (expiry.toList <:+: i.instrument_name.toList)))
    | none => .error .keyError

/-- Response handling of `get_order_book` (lines 108—125): `return
response["result"]` with no error check. -/
def get_order_book_handle {α : Type} (resp : RpcResponse α) : Except RpcFailure α :=
  match resp.result with
  | some r => .ok r
  | none => .error .keyError

/-- Response handling of `get_ticker` (lines 146—163): `return
response["result"]` with no error check. -/
def get_ticker_handle {α : Type} (resp : RpcResponse α) : Except RpcFailure α :=
  match resp.result with
  | some r => .ok r
  | none => .error .keyError

/-- The `result` object of the `public/ticker` call as used by
`get_mark_price`. -/
structure TickerResult where
  mark_price : Option ℚ
deriving DecidableEq

/-- Response handling of `get_mark_price` (lines 127—144): `return
response["result"].get("mark_price")` with no error check. -/
def get_mark_price_handle (resp : RpcResponse TickerResult) :
    Except RpcFailure (Option ℚ) :=
  match resp.result with
  | some r => .ok r.mark_price
  | none => .error .keyError

/-- Counterexample to C9: on a response that carries an `error` field and no
`result`, `get_order_book` indexes blindly into `result` and dies with a
`KeyError` instead of surfacing the typed API failure. -/
theorem c9_get_order_book_blind_index_counterexample :
    (⟨some "API down", none⟩ : RpcResponse ℚ).error = some "API down" ∧
    get_order_book_handle (⟨some "API down", none⟩ : RpcResponse ℚ)
      = .error .keyError ∧
    get_order_book_handle (⟨some "API down", none⟩ : RpcResponse ℚ)
      ≠ .error (.apiError "API down") := by
  refine ⟨rfl, rfl, ?_⟩
  intro hcontra
  exact RpcFailure.noConfusion (Except.error.inj hcontra)

/-- C9 as amended: only `load_instruments` checks the `error` field and
surfaces it as a typed failure before touching `result`; `get_order_book`,
`get_ticker` and `get_mark_price` index into `result` unconditionally, so on
a response with an `error` field and no `result` they raise `KeyError`. -/
theorem c9_only_load_instruments_checks_error {α : Type} (expiry : String)
    (resp : RpcResponse (List RawInstrument)) (respB : RpcResponse α)
    (respT : RpcResponse TickerResult) (e : String)
    (herr : resp.error = some e) (hres : respB.result = none)
    (hresT : respT.result = none) :
    load_instruments_handle expiry resp = .error (.apiError e) ∧
    get_order_book_handle respB = .error .keyError ∧
    get_ticker_handle respB = .error .keyError ∧
    get_mark_price_handle respT = .error .keyError := by
  refine ⟨?_, ?_, ?_, ?_⟩
  · unfold load_instruments_handle
    rw [herr]
  · unfold get_order_book_handle
    rw [hres]
  · unfold get_ticker_handle
    rw [hres]
  · unfold get_mark_price_handle
    rw [hresT]

/-- Witness for C9 (amended): applied at concrete error-carrying responses. -/
theorem c9_only_load_instruments_checks_error_witness :
    load_instruments_handle "28JUN24"
        (⟨some "oops", none⟩ : RpcResponse (List RawInstrument))
      = .error (.apiError "oops") ∧
    get_order_book_handle (⟨some "oops", none⟩ : RpcResponse ℚ)
      = .error .keyError ∧
    get_ticker_handle (⟨some "oops", none⟩ : RpcResponse ℚ)
      = .error .keyError ∧
    get_mark_price_handle ⟨some "oops", none⟩ = .error .keyError :=
  c9_only_load_instruments_checks_error "28JUN24" ⟨some "oops", none⟩
    ⟨some "oops", none⟩ ⟨some "oops", none⟩ "oops" rfl rfl rfl

/-! ## task2/price_estimator.py: the settlement reconciler -/

/-- Constant `CRYPTOS` (task2/config.py): the tracked assets, fixing the column order
of the merged table. -/
def CRYPTOS : List String := ["BTC", "ETH", "PAXG", "SOL", "XRP", "ADA"]

/-- Constant `amount_vector`, built as the numpy array of the `AMOUNTS` of task2/config.py taken in `CRYPTOS` order
with the `AMOUNTS` of task2/config.py. -/
def amount_vector : List ℚ :=
  [0.00005181, 0.0013371, 0.0015856, 0.020196, 7.2942, 7.3376]

/-- One row of the merged table: timestamp (the DataFrame index) and the
per-asset merged prices in `CRYPTOS` order, `0` being the missing-value
sentinel written by `merge_data`'s `fillna(0)`. -/
abbrev MergedRow := ℤ × List ℚ

/-- The per-asset USD valuations of one row, missing entries dropped:
`np.where(a == 0, np.nan, a) * amount_vector`, with the NaN entries ignored
by every later `nan`-aggregation, is the list of `price * amount` over the
non-sentinel cells. -/
def valuations (amounts prices : List ℚ) : List ℚ :=
  (prices.zip amounts).filterMap
    (fun pa => if pa.1 = 0 then none else some (pa.1 * pa.2))

/-- Aggregation `np.nanmean`: mean of the valid entries. -/
def nanmean (v : List ℚ) : ℚ := v.sum / v.length

/-- Population variance of the valid entries: the square of `np.nanstd`
(whose default `ddof` is 0).  See `nanstd` and `nanstd_lt_iff_nanvar_lt` for
why minimising this selects the same row as minimising `np.nanstd`. -/
def nanvar (v : List ℚ) : ℚ := ((v.map (fun x => (x - nanmean v) ^ 2)).sum) / v.length

/-- Aggregation `np.nanmean(np.abs(x - np.nanmean(x)))`: mean absolute deviation. -/
def nanmad (v : List ℚ) : ℚ := ((v.map (fun x => |x - nanmean v|)).sum) / v.length

/-- Aggregation `np.nanmax` over a non-empty list (the estimators only apply it to rows
with more than two valid entries). -/
def listMax : List ℚ → ℚ
  | [] => 0
  | x :: xs => xs.foldl max x

/-- Aggregation `np.nanmin` over a non-empty list. -/
def listMin : List ℚ → ℚ
  | [] => 0
  | x :: xs => xs.foldl min x

/-- Aggregation `np.nanmax(...) - np.nanmin(...)`: the min-max spread. -/
def spreadQ (v : List ℚ) : ℚ := listMax v - listMin v

/-- The three dispersion metrics selectable through `--method` in
task2/main.py. -/
inductive Metric
  | std
  | mad
  | minmax
deriving DecidableEq

/-- The row score each estimator minimises.  `estimate_price_std` minimises
`np.nanstd`, the square root of `nanvar`; the square root is strictly
monotone on non-negative arguments (`nanstd_lt_iff_nanvar_lt`), so
minimising `nanvar` picks exactly the same row while keeping the selection
decidable over `ℚ`. -/
def dispersion : Metric → List ℚ → ℚ
  | .std, v => nanvar v
  | .mad, v => nanmad v
  | .minmax, v => spreadQ v

/-- Aggregation `np.nanstd` itself (over the reals). -/
noncomputable def nanstd (v : List ℚ) : ℝ := Real.sqrt ((nanvar v : ℚ) : ℝ)

lemma nanvar_nonneg (v : List ℚ) : 0 ≤ nanvar v := by
  unfold nanvar
  apply div_nonneg _ (by positivity)
  apply List.sum_nonneg
  intro x hx
  obtain ⟨y, _, rfl⟩ := List.mem_map.mp hx
  positivity

/-- Row selection by `np.nanstd` and by `nanvar` agree: the standard
deviation of one row is smaller than that of another iff the variance is. -/
lemma nanstd_lt_iff_nanvar_lt (v w : List ℚ) :
    nanstd v < nanstd w ↔ nanvar v < nanvar w := by
  unfold nanstd
  rw [Real.sqrt_lt_sqrt_iff (by exact_mod_cast nanvar_nonneg v)]
  exact ⟨fun h => by exact_mod_cast h, fun h => by exact_mod_cast h⟩

/-- The numpy failure mode relevant here: `np.nanargmin` / `np.argmin` of an
empty array raises `ValueError`. -/
inductive NpError
  | valueError
deriving DecidableEq

/-- The best-match record each estimator builds (timestamp, rounded mean
valuation, dispersion score of the selected row, dataset label).  The
reported score for the `std` metric is the rounded `np.nanstd`; here the raw
`nanvar` stands in for it (no claim concerns the reported score's numeric
value). -/
structure BestMatch where
  timestamp : ℤ
  price_usd : ℚ
  score : ℚ
  label : String
deriving DecidableEq

/-- Round half to even at integer precision: Python's builtin `round`. -/
def roundHalfEven (q : ℚ) : ℤ :=
  if q - ⌊q⌋ = 1 / 2 then (if Even ⌊q⌋ then ⌊q⌋ else ⌊q⌋ + 1) else round q

/-- Python `round(x, 6)`: round to six decimal places, ties to even. -/
def pyRound6 (q : ℚ) : ℚ := (roundHalfEven (q * 1000000) : ℤ) / 1000000

/-- Eligibility `valid_counts > 2`: the row is eligible when strictly more than two
assets carry a valid (non-sentinel) price. -/
def qualifies (amounts : List ℚ) (r : MergedRow) : Bool :=
  decide (2 < (valuations amounts r.2).length)

/-- Masking `prices[valid_counts > 2]` together with
`merged_df.index[valid_counts > 2]`: the qualifying rows in table order. -/
def qualifyingRows (amounts : List ℚ) (table : List MergedRow) : List MergedRow :=
  table.filter (qualifies amounts)

/-- First index of the minimal entry: `np.argmin` (and `np.nanargmin` on an
array without NaNs) returns the first occurrence of the minimum. -/
def argminIdx (l : List ℚ) : ℕ := l.findIdx (fun x => x == listMin l)

/-- Common core of `estimate_price_std`, `estimate_price_mad` and
`estimate_price_min_max` (task2/price_estimator.py): replace the 0 sentinel
by NaN, multiply by the basket weights, keep the rows with more than two
valid valuations, score each remaining row by the chosen dispersion metric,
take the first row attaining the minimal score, and report its timestamp,
rounded mean valuation and score.  An empty filtered array makes
`np.nanargmin`/`np.argmin` raise `ValueError`. -/
def estimate_price (m : Metric) (amounts : List ℚ) (table : List MergedRow)
    (label : String) : Except NpError BestMatch :=
  match qualifyingRows amounts table with
  | [] => .error .valueError
  | r0 :: rs =>
    let scores := (r0 :: rs).map (fun r => dispersion m (valuations amounts r.2))
    let i := argminIdx scores
    let best := (r0 :: rs).getD i r0
    let v := valuations amounts best.2
    .ok ⟨best.1, pyRound6 (nanmean v), dispersion m v, label⟩

lemma foldl_min_le_init (l : List ℚ) (a : ℚ) : l.foldl min a ≤ a := by
  induction l generalizing a with
  | nil => simp
  | cons x xs ih => exact le_trans (ih (min a x)) (min_le_left a x)

lemma foldl_min_le_mem {l : List ℚ} {x : ℚ} (hx : x ∈ l) (a : ℚ) :
    l.foldl min a ≤ x := by
  induction l generalizing a with
  | nil => cases hx
  | cons y ys ih =>
    rw [List.foldl_cons]
    rcases List.mem_cons.mp hx with rfl | hx'
    · exact le_trans (foldl_min_le_init ys (min a x)) (min_le_right a x)
    · exact ih hx' (min a y)

lemma foldl_min_mem (l : List ℚ) (a : ℚ) : l.foldl min a ∈ a :: l := by
  induction l generalizing a with
  | nil => simp
  | cons x xs ih =>
    rw [List.foldl_cons]
    rcases List.mem_cons.mp (ih (min a x)) with h | h
    · rcases min_choice a x with hm | hm
      · rw [h, hm]; exact List.mem_cons_self a (x :: xs)
      · rw [h, hm]; exact List.mem_cons_of_mem a (List.mem_cons_self x xs)
    · exact List.mem_cons_of_mem a (List.mem_cons_of_mem x h)

lemma listMin_le {l : List ℚ} {x : ℚ} (hx : x ∈ l) : listMin l ≤ x := by
  rcases l with _ | ⟨y, ys⟩
  · cases hx
  · unfold listMin
    rcases List.mem_cons.mp hx with rfl | hx'
    · exact foldl_min_le_init ys x
    · exact foldl_min_le_mem hx' y

lemma listMin_mem {l : List ℚ} (h : l ≠ []) : listMin l ∈ l := by
  rcases l with _ | ⟨y, ys⟩
  · exact absurd rfl h
  · exact foldl_min_mem ys y

lemma argminIdx_lt_length {l : List ℚ} (h : l ≠ []) : argminIdx l < l.length :=
  List.findIdx_lt_length_of_exists ⟨listMin l, listMin_mem h, by simp⟩

lemma argminIdx_get {l : List ℚ} (hlt : argminIdx l < l.length) :
    l.get ⟨argminIdx l, hlt⟩ = listMin l := by
  have := List.findIdx_getElem (p := fun x => x == listMin l) (w := hlt)
  rw [List.get_eq_getElem]
  exact beq_iff_eq.mp this

lemma argminIdx_earlier {l : List ℚ} {j : ℕ} (hj : j < argminIdx l)
    (hjl : j < l.length) : l.get ⟨j, hjl⟩ ≠ listMin l := by
  have := List.not_of_lt_findIdx (p := fun x => x == listMin l) hj
  rw [List.get_eq_getElem]
  intro hcontra
  rw [hcontra] at this
  simp at this

lemma estimate_price_of_no_qualifying (m : Metric) (amounts : List ℚ)
    (table : List MergedRow) (label : String)
    (h : qualifyingRows amounts table = []) :
    estimate_price m amounts table label = .error .valueError := by
  unfold estimate_price
  rw [h]

lemma estimate_price_eq_ok (m : Metric) (amounts : List ℚ)
    (table : List MergedRow) (label : String) {r0 : MergedRow} {rs : List MergedRow}
    (hq : qualifyingRows amounts table = r0 :: rs) :
    estimate_price m amounts table label =
      .ok ⟨((r0 :: rs).getD
              (argminIdx ((r0 :: rs).map (fun r => dispersion m (valuations amounts r.2)))) r0).1,
           pyRound6 (nanmean (valuations amounts
             ((r0 :: rs).getD
              (argminIdx ((r0 :: rs).map (fun r => dispersion m (valuations amounts r.2)))) r0).2)),
           dispersion m (valuations amounts
             ((r0 :: rs).getD
              (argminIdx ((r0 :: rs).map (fun r => dispersion m (valuations amounts r.2)))) r0).2),
           label⟩ := by
  unfold estimate_price
  rw [hq]

lemma argmin_map_spec {α : Type} (f : α → ℚ) (L : List α) (hL : L ≠ []) :
    ∃ (i : ℕ) (hi : i < L.length),
      i = argminIdx (L.map f) ∧
      (∀ (j : ℕ) (hj : j < L.length), f (L.get ⟨i, hi⟩) ≤ f (L.get ⟨j, hj⟩)) ∧
      (∀ (j : ℕ) (hj : j < L.length), j < i → f (L.get ⟨i, hi⟩) < f (L.get ⟨j, hj⟩)) := by
  have hsne : L.map f ≠ [] := by simpa using hL
  have hilt : argminIdx (L.map f) < (L.map f).length := argminIdx_lt_length hsne
  have hiL : argminIdx (L.map f) < L.length := by simpa using hilt
  have hgeti : (L.map f).get ⟨argminIdx (L.map f), hilt⟩
      = f (L.get ⟨argminIdx (L.map f), hiL⟩) := by
    rw [List.get_eq_getElem, List.get_eq_getElem, List.getElem_map]
  refine ⟨argminIdx (L.map f), hiL, rfl, ?_, ?_⟩
  · intro j hj
    have hjs : j < (L.map f).length := by simpa using hj
    have hgetj : (L.map f).get ⟨j, hjs⟩ = f (L.get ⟨j, hj⟩) := by
      rw [List.get_eq_getElem, List.get_eq_getElem, List.getElem_map]
    have hmin := listMin_le (List.get_mem (L.map f) j hjs)
    rw [← hgetj, ← hgeti, argminIdx_get hilt]
    exact hmin
  · intro j hj hji
    have hjs : j < (L.map f).length := by simpa using hj
    have hgetj : (L.map f).get ⟨j, hjs⟩ = f (L.get ⟨j, hj⟩) := by
      rw [List.get_eq_getElem, List.get_eq_getElem, List.getElem_map]
    have hmin := listMin_le (List.get_mem (L.map f) j hjs)
    have hne := argminIdx_earlier hji hjs
    have hlt : listMin (L.map f) < (L.map f).get ⟨j, hjs⟩ :=
      lt_of_le_of_ne hmin (Ne.symm hne)
    rw [← hgetj, ← hgeti, argminIdx_get hilt]
    exact hlt

/-- Full characterisation of a successful estimator run: the returned record
is built from the first qualifying row whose dispersion attains the global
minimum over the qualifying rows. -/
lemma estimate_price_spec (m : Metric) (amounts : List ℚ) (table : List MergedRow)
    (label : String) (b : BestMatch)
    (hb : estimate_price m amounts table label = .ok b) :
    ∃ (i : ℕ) (hi : i < (qualifyingRows amounts table).length),
      b = ⟨((qualifyingRows amounts table).get ⟨i, hi⟩).1,
           pyRound6 (nanmean (valuations amounts
             ((qualifyingRows amounts table).get ⟨i, hi⟩).2)),
           dispersion m (valuations amounts
             ((qualifyingRows amounts table).get ⟨i, hi⟩).2),
           label⟩ ∧
      (∀ (j : ℕ) (hj : j < (qualifyingRows amounts table).length),
        dispersion m (valuations amounts ((qualifyingRows amounts table).get ⟨i, hi⟩).2)
          ≤ dispersion m (valuations amounts ((qualifyingRows amounts table).get ⟨j, hj⟩).2)) ∧
      (∀ (j : ℕ) (hj : j < (qualifyingRows amounts table).length), j < i →
        dispersion m (valuations amounts ((qualifyingRows amounts table).get ⟨i, hi⟩).2)
          < dispersion m (valuations amounts ((qualifyingRows amounts table).get ⟨j, hj⟩).2)) := by
  rcases hq : qualifyingRows amounts table with _ | ⟨r0, rs⟩
  · exfalso
    have herr := estimate_price_of_no_qualifying m amounts table label hq
    rw [hb] at herr
    exact Except.noConfusion herr
  · obtain ⟨i, hi, hieq, hmin, hstrict⟩ :=
      argmin_map_spec (fun r => dispersion m (valuations amounts r.2)) (r0 :: rs)
        (by simp)
    have hbody := estimate_price_eq_ok m amounts table label hq
    rw [hb] at hbody
    have hbval := Except.ok.inj hbody
    rw [← hieq] at hbval
    have hgetD : (r0 :: rs).getD i r0 = (r0 :: rs).get ⟨i, hi⟩ := by
      rw [List.getD_eq_getElem _ _ hi, List.get_eq_getElem]
    rw [hgetD] at hbval
    exact ⟨i, hi, hbval, hmin, hstrict⟩

/-- In a table whose timestamps are strictly increasing, two rows with the
same timestamp coincide. -/
lemma eq_of_mem_pairwise_ts {table : List MergedRow}
    (hsorted : table.Pairwise (fun a b => a.1 < b.1))
    {r s : MergedRow} (hr : r ∈ table) (hs : s ∈ table) (hts : r.1 = s.1) :
    r = s := by
  obtain ⟨n, hn⟩ := List.mem_iff_get.mp hr
  obtain ⟨k, hk⟩ := List.mem_iff_get.mp hs
  have hp := List.pairwise_iff_get.mp hsorted
  rcases lt_trichotomy n k with h | h | h
  · have hlt := hp n k h
    rw [hn, hk] at hlt
    rw [hts] at hlt
    exact absurd hlt (lt_irrefl _)
  · rw [← hn, ← hk, h]
  · have hlt := hp k n h
    rw [hn, hk] at hlt
    rw [hts] at hlt
    exact absurd hlt (lt_irrefl _)

/-- C8: when no merged row has strictly more than two valid assets, every
estimator raises (`np.nanargmin`/`np.argmin` on the empty filtered array
throws `ValueError`) instead of returning a `BestMatch`. -/
theorem c8_no_qualifying_rows_raises (m : Metric) (amounts : List ℚ)
    (table : List MergedRow) (label : String)
    (h : qualifyingRows amounts table = []) :
    estimate_price m amounts table label = .error .valueError :=
  estimate_price_of_no_qualifying m amounts table label h

/-- C3: whenever an estimator returns a best match over a strictly
increasing timestamp grid, the table row carrying the returned timestamp has
strictly more than two valid (non-sentinel) asset prices; a row with two or
fewer valid assets is never selected, regardless of its dispersion. -/
theorem c3_selected_row_has_more_than_two_valid (m : Metric) (amounts : List ℚ)
    (table : List MergedRow) (label : String) (b : BestMatch)
    (hsorted : table.Pairwise (fun a b => a.1 < b.1))
    (hb : estimate_price m amounts table label = .ok b) :
    ∀ r ∈ table, r.1 = b.timestamp → 2 < (valuations amounts r.2).length := by
  obtain ⟨i, hi, hbval, -, -⟩ := estimate_price_spec m amounts table label b hb
  intro r hr hts
  have hselmem : (qualifyingRows amounts table).get ⟨i, hi⟩ ∈ qualifyingRows amounts table :=
    List.get_mem _ _ _
  have hself := List.mem_filter.mp hselmem
  have hreq : r = (qualifyingRows amounts table).get ⟨i, hi⟩ := by
    apply eq_of_mem_pairwise_ts hsorted hr hself.1
    rw [hts, hbval]
  rw [hreq]
  simpa [qualifies] using hself.2

/-- C2 as amended: over a strictly-increasing timestamp grid, each estimator
selects among the qualifying rows one attaining the globally minimal
dispersion score, taking the earliest timestamp on ties, and reports as
`price_usd` the mean of the selected row's non-missing valuations rounded to
six decimal places (the source applies `round(..., 6)` before reporting). -/
theorem c2_selects_global_min_and_reports_rounded_mean (m : Metric)
    (amounts : List ℚ) (table : List MergedRow) (label : String) (b : BestMatch)
    (hsorted : table.Pairwise (fun a b => a.1 < b.1))
    (hb : estimate_price m amounts table label = .ok b) :
    ∃ (i : ℕ) (hi : i < (qualifyingRows amounts table).length),
      b.timestamp = ((qualifyingRows amounts table).get ⟨i, hi⟩).1 ∧
      b.price_usd = pyRound6 (nanmean (valuations amounts
        ((qualifyingRows amounts table).get ⟨i, hi⟩).2)) ∧
      (∀ (j : ℕ) (hj : j < (qualifyingRows amounts table).length),
        dispersion m (valuations amounts ((qualifyingRows amounts table).get ⟨i, hi⟩).2)
          ≤ dispersion m (valuations amounts ((qualifyingRows amounts table).get ⟨j, hj⟩).2)) ∧
      (∀ (j : ℕ) (hj : j < (qualifyingRows amounts table).length),
        dispersion m (valuations amounts ((qualifyingRows amounts table).get ⟨j, hj⟩).2)
            = dispersion m (valuations amounts ((qualifyingRows amounts table).get ⟨i, hi⟩).2) →
          ((qualifyingRows amounts table).get ⟨i, hi⟩).1
            ≤ ((qualifyingRows amounts table).get ⟨j, hj⟩).1) := by
  obtain ⟨i, hi, hbval, hmin, hstrict⟩ := estimate_price_spec m amounts table label b hb
  have hqsorted : (qualifyingRows amounts table).Pairwise (fun a b => a.1 < b.1) :=
    hsorted.filter _
  refine ⟨i, hi, by rw [hbval], by rw [hbval], hmin, ?_⟩
  intro j hj heq
  rcases lt_trichotomy j i with h | h | h
  · exfalso
    have := hstrict j hj h
    rw [heq] at this
    exact absurd this (lt_irrefl _)
  · subst h
    exact le_rfl
  · exact le_of_lt (List.pairwise_iff_get.mp hqsorted ⟨i, hi⟩ ⟨j, hj⟩ h)

lemma estimate_price_singleton (m : Metric) (amounts : List ℚ) (ts : ℤ)
    (prices : List ℚ) (label : String)
    (h : qualifies amounts (ts, prices) = true) :
    estimate_price m amounts [(ts, prices)] label
      = .ok ⟨ts, pyRound6 (nanmean (valuations amounts prices)),
             dispersion m (valuations amounts prices), label⟩ := by
  have hq : qualifyingRows amounts [(ts, prices)] = [(ts, prices)] := by
    simp [qualifyingRows, List.filter_cons, h]
  rw [estimate_price_eq_ok m amounts _ label hq]
  have hidx : argminIdx ([((ts, prices) : MergedRow)].map
      (fun r => dispersion m (valuations amounts r.2))) = 0 := by
    simp [argminIdx, listMin, List.findIdx_cons]
  rw [hidx]
  rfl

/-- Witness for C8: a table whose single row has only two valid assets makes
every estimator raise. -/
theorem c8_no_qualifying_rows_raises_witness :
    qualifyingRows amount_vector [((1 : ℤ), [1, 2, 0, 0, 0, 0])] = [] ∧
    estimate_price .std amount_vector [((1 : ℤ), [1, 2, 0, 0, 0, 0])] "testnet"
      = .error .valueError :=
  ⟨by decide, c8_no_qualifying_rows_raises .std amount_vector _ "testnet" (by decide)⟩

/-- All-ones weights used in small witnesses. -/
def onesAmounts : List ℚ := [1, 1, 1, 1, 1, 1]

/-- A single qualifying row used in witnesses. -/
def rowW : MergedRow := (1, [2, 2, 2, 0, 0, 0])

/-- Witness table for C2/C3. -/
def tableW : List MergedRow := [rowW]

/-- The record `estimate_price` produces on `tableW`. -/
def bW : BestMatch :=
  ⟨1, pyRound6 (nanmean (valuations onesAmounts [2, 2, 2, 0, 0, 0])),
   dispersion .std (valuations onesAmounts [2, 2, 2, 0, 0, 0]), "testnet"⟩

/-- Witness for C3: on a concrete run the returned timestamp's row has more
than two valid assets. -/
theorem c3_selected_row_has_more_than_two_valid_witness :
    2 < (valuations onesAmounts [2, 2, 2, 0, 0, 0]).length := by
  have h : qualifies onesAmounts ((1 : ℤ), [2, 2, 2, 0, 0, 0]) = true := by decide
  have hb := estimate_price_singleton .std onesAmounts 1 [2, 2, 2, 0, 0, 0] "testnet" h
  exact c3_selected_row_has_more_than_two_valid .std onesAmounts tableW "testnet" bW
    (by simp [tableW, rowW]) hb ((1 : ℤ), [2, 2, 2, 0, 0, 0]) (by simp [tableW, rowW]) rfl

/-- Witness for C2 (amended): the selection/rounded-mean characterisation at
a concrete one-row table. -/
theorem c2_selects_global_min_witness :
    ∃ (i : ℕ) (hi : i < (qualifyingRows onesAmounts tableW).length),
      bW.timestamp = ((qualifyingRows onesAmounts tableW).get ⟨i, hi⟩).1 ∧
      bW.price_usd = pyRound6 (nanmean (valuations onesAmounts
        ((qualifyingRows onesAmounts tableW).get ⟨i, hi⟩).2)) ∧
      (∀ (j : ℕ) (hj : j < (qualifyingRows onesAmounts tableW).length),
        dispersion .std (valuations onesAmounts ((qualifyingRows onesAmounts tableW).get ⟨i, hi⟩).2)
          ≤ dispersion .std (valuations onesAmounts ((qualifyingRows onesAmounts tableW).get ⟨j, hj⟩).2)) ∧
      (∀ (j : ℕ) (hj : j < (qualifyingRows onesAmounts tableW).length),
        dispersion .std (valuations onesAmounts ((qualifyingRows onesAmounts tableW).get ⟨j, hj⟩).2)
            = dispersion .std (valuations onesAmounts ((qualifyingRows onesAmounts tableW).get ⟨i, hi⟩).2) →
          ((qualifyingRows onesAmounts tableW).get ⟨i, hi⟩).1
            ≤ ((qualifyingRows onesAmounts tableW).get ⟨j, hj⟩).1) := by
  have h : qualifies onesAmounts ((1 : ℤ), [2, 2, 2, 0, 0, 0]) = true := by decide
  have hb := estimate_price_singleton .std onesAmounts 1 [2, 2, 2, 0, 0, 0] "testnet" h
  exact c2_selects_global_min_and_reports_rounded_mean .std onesAmounts tableW "testnet" bW
    (by simp [tableW, rowW]) hb

/-- Prices whose valuations under the real basket weights are exactly
`[1, 1, 2]` (the last three assets missing). -/
def pCex : List ℚ := [100000000 / 5181, 10000000 / 13371, 20000000 / 15856, 0, 0, 0]

/-- The record actually produced on `[(5, pCex)]`: `price_usd` is the
rounded mean `1.333333`, not the exact mean `4/3`. -/
def bCex : BestMatch := ⟨5, 1333333 / 1000000, 2 / 9, "mainnet"⟩

lemma pyRound6_four_thirds : pyRound6 (4 / 3) = 1333333 / 1000000 := by
  unfold pyRound6 roundHalfEven
  rw [show (4 / 3 : ℚ) * 1000000 = 4000000 / 3 by norm_num]
  have hfl : ⌊(4000000 / 3 : ℚ)⌋ = 1333333 := by
    apply Int.floor_eq_iff.mpr
    constructor <;> norm_num
  rw [hfl]
  rw [if_neg (by norm_num)]
  rw [round_eq]
  rw [show (4000000 / 3 : ℚ) + 1 / 2 = 8000003 / 6 by norm_num]
  have hfl2 : ⌊(8000003 / 6 : ℚ)⌋ = 1333333 := by
    apply Int.floor_eq_iff.mpr
    constructor <;> norm_num
  rw [hfl2]
  norm_num

/-- Counterexample to C2 as frozen: the program reports as `price_usd` the
mean rounded to six decimals, which differs from the exact mean of the
selected row's valuations (`4/3` here). -/
theorem c2_reports_exact_mean_counterexample :
    estimate_price .std amount_vector [((5 : ℤ), pCex)] "mainnet" = .ok bCex ∧
    bCex.price_usd ≠ nanmean (valuations amount_vector pCex) := by
  have hv : valuations amount_vector pCex = [1, 1, 2] := by
    norm_num [valuations, amount_vector, pCex, List.zip, List.filterMap_cons]
  have hmean : nanmean (valuations amount_vector pCex) = 4 / 3 := by
    rw [hv]
    norm_num [nanmean]
  have hdisp : dispersion .std (valuations amount_vector pCex) = 2 / 9 := by
    rw [show dispersion .std (valuations amount_vector pCex)
        = nanvar (valuations amount_vector pCex) from rfl, hv]
    norm_num [nanvar, nanmean]
  have hq : qualifies amount_vector ((5 : ℤ), pCex) = true := by
    simp [qualifies, hv]
  have hrun := estimate_price_singleton .std amount_vector 5 pCex "mainnet" hq
  rw [hmean, hdisp, pyRound6_four_thirds] at hrun
  refine ⟨hrun, ?_⟩
  rw [hmean]
  norm_num [bCex]

/-! ## task2/main.py: run_analysis, cross-dataset comparison -/

/-- One estimator result as seen by `run_analysis`: the dict carries its
dataset label and, under exactly one of the keys `"std"`/`"mad"`/`"minmax"`
(the one matching the method that produced it), the reported score. -/
structure RunResult where
  label : String
  score : ℚ
deriving DecidableEq

/-- Lookup `x.get(k)` on an estimator result dict: the score when `k` is the metric
that produced the dict, `None` otherwise. -/
def dictGet (m : Metric) (r : RunResult) (k : Metric) : Option ℚ :=
  if k = m then some r.score else none

/-- Python `a or b` on a float-or-None left operand: return `a` unless it is
falsy (`None` or `0.0`), else return `b` unchanged. -/
def pyOrF (a b : Option ℚ) : Option ℚ :=
  match a with
  | none => b
  | some x => if x ≠ 0 then some x else b

/-- The sort key `x.get("std") or x.get("mad") or x.get("minmax")` of
`run_analysis` (task2/main.py, lines 104—112). -/
def minKey (m : Metric) (r : RunResult) : Option ℚ :=
  pyOrF (dictGet m r .std) (pyOrF (dictGet m r .mad) (dictGet m r .minmax))

/-- Python `min` comparing a float with `None` raises `TypeError`. -/
inductive PyError
  | typeError
deriving DecidableEq

/-- Call `min([result_test, result_main], key=...)`: keep the first result unless
the second's key is strictly smaller; comparing against a `None` key raises
`TypeError`. -/
def select_best (m : Metric) (result_test result_main : RunResult) :
    Except PyError RunResult :=
  match minKey m result_test, minKey m result_main with
  | some k1, some k2 => .ok (if k2 < k1 then result_main else result_test)
  | _, _ => .error .typeError

lemma minKey_of_ne_zero (m : Metric) (r : RunResult) (h : r.score ≠ 0) :
    minKey m r = some r.score := by
  cases m <;> simp [minKey, pyOrF, dictGet, h]

lemma minKey_zero_std_mad (m : Metric) (r : RunResult) (h : r.score = 0)
    (hm : m = .std ∨ m = .mad) : minKey m r = none := by
  rcases hm with rfl | rfl <;> simp [minKey, pyOrF, dictGet, h]

/-- Counterexample to C6 as frozen: with the `std` metric, a best row whose
reported score is exactly 0 turns the sort key into `None` (`0.0 or
x.get("mad") or x.get("minmax")` falls through to `None`), so `min` raises
`TypeError` instead of reporting the lower-score source (which the claim
says should be the testnet result here). -/
theorem c6_zero_score_counterexample :
    (⟨"testnet", 0⟩ : RunResult).score < (⟨"mainnet", 1⟩ : RunResult).score ∧
    select_best .std ⟨"testnet", 0⟩ ⟨"mainnet", 1⟩ = .error .typeError ∧
    select_best .std ⟨"testnet", 0⟩ ⟨"mainnet", 1⟩ ≠ .ok ⟨"testnet", 0⟩ := by
  refine ⟨by norm_num, ?_, ?_⟩
  · simp [select_best, minKey, pyOrF, dictGet]
  · have h : select_best .std ⟨"testnet", 0⟩ ⟨"mainnet", 1⟩ = .error .typeError := by
      simp [select_best, minKey, pyOrF, dictGet]
    rw [h]
    intro hc
    exact Except.noConfusion hc

/-- C6 as amended: when both reported scores are nonzero, the source whose
best row has the lower dispersion score wins (the first — testnet — on
ties); when the metric is `std` or `mad` and either score is exactly 0, the
key expression degrades to `None` and the comparison raises `TypeError`, so
no final answer is reported. -/
theorem c6_lower_score_wins_unless_zero (m : Metric) (rt rm : RunResult) :
    (rt.score ≠ 0 → rm.score ≠ 0 →
      ((rt.score ≤ rm.score → select_best m rt rm = .ok rt) ∧
       (rm.score < rt.score → select_best m rt rm = .ok rm))) ∧
    ((m = .std ∨ m = .mad) → (rt.score = 0 ∨ rm.score = 0) →
      select_best m rt rm = .error .typeError) := by
  constructor
  · intro h1 h2
    unfold select_best
    rw [minKey_of_ne_zero m rt h1, minKey_of_ne_zero m rm h2]
    constructor
    · intro hle
      simp [not_lt.mpr hle]
    · intro hlt
      simp [hlt]
  · intro hm hz
    rcases hz with h0 | h0
    · unfold select_best
      rw [minKey_zero_std_mad m rt h0 hm]
    · unfold select_best
      rw [minKey_zero_std_mad m rm h0 hm]
      cases minKey m rt <;> rfl

/-- Witness for C6 (amended): concrete nonzero-score and zero-score runs. -/
theorem c6_lower_score_wins_unless_zero_witness :
    select_best .std ⟨"testnet", 1⟩ ⟨"mainnet", 2⟩ = .ok ⟨"testnet", 1⟩ ∧
    select_best .mad ⟨"testnet", 0⟩ ⟨"mainnet", 2⟩ = .error .typeError := by
  constructor
  · exact ((c6_lower_score_wins_unless_zero .std ⟨"testnet", 1⟩ ⟨"mainnet", 2⟩).1
      (by norm_num) (by norm_num)).1 (by norm_num)
  · exact (c6_lower_score_wins_unless_zero .mad ⟨"testnet", 0⟩ ⟨"mainnet", 2⟩).2
      (Or.inr rfl) (Or.inl rfl)

/-! ## task2/data_collection.py: collect_data and merge_data -/

/-- One settlement entry as returned by the exchange: `entry.get("timestamp")`
and `entry.get("mark_price")` may each be absent. -/
structure SettlementEntry where
  timestamp : Option ℤ
  mark_price : Option ℚ
deriving DecidableEq

/-- The `if timestamp and price:` guard of `collect_data` (lines 67—71):
both fields present and truthy (nonzero). -/
def keep_entry (e : SettlementEntry) : Bool :=
  (match e.timestamp with
   | some t => decide (t ≠ 0)
   | none => false) &&
  (match e.mark_price with
   | some p => decide (p ≠ 0)
   | none => false)

/-- The record-building loop of `collect_data` for one asset: keep exactly
the entries passing `if timestamp and price:` as `(crypto, timestamp, price)`
records. -/
def collect_records (crypto : String) (settlements : List SettlementEntry) :
    List (String × ℤ × ℚ) :=
  settlements.filterMap (fun e =>
    if keep_entry e then some (crypto, e.timestamp.getD 0, e.mark_price.getD 0) else none)

/-- The per-asset dict fill of `merge_data` (`crypto_data[crypto][ts] = price`,
last write wins) restricted to one timestamp. -/
def lastLookup (recs : List (ℤ × ℚ)) (ts : ℤ) : Option ℚ :=
  ((recs.filter (fun r => r.1 == ts)).getLast?).map (fun r => r.2)

/-- One cell of the merged table after `fillna(0)`: the (last) observed price
at that timestamp, else the 0 sentinel. -/
def merged_cell (recs : List (ℤ × ℚ)) (ts : ℤ) : ℚ := (lastLookup recs ts).getD 0

lemma collect_entry_eq (c : String) (e : SettlementEntry) (ts : ℤ) (p : ℚ) :
    ((if keep_entry e then some (c, e.timestamp.getD 0, e.mark_price.getD 0) else none)
      = some (c, ts, p))
    ↔ (e.timestamp = some ts ∧ e.mark_price = some p ∧ ts ≠ 0 ∧ p ≠ 0) := by
  rcases e with ⟨_ | t, _ | mp⟩
  · simp [keep_entry]
  · simp [keep_entry]
  · simp [keep_entry]
  constructor
  · intro h
    by_cases hk : keep_entry ⟨some t, some mp⟩ = true
    · have hkk : t ≠ 0 ∧ mp ≠ 0 := by simpa [keep_entry] using hk
      rw [if_pos hk] at h
      have h' := Option.some.inj h
      have h1 : t = ts := congrArg (fun x => x.2.1) h'
      have h2 : mp = p := congrArg (fun x => x.2.2) h'
      subst h1
      subst h2
      exact ⟨rfl, rfl, hkk.1, hkk.2⟩
    · rw [if_neg hk] at h
      exact absurd h (by simp)
  · rintro ⟨h1, h2, h3, h4⟩
    have h1' : t = ts := Option.some.inj h1
    have h2' : mp = p := Option.some.inj h2
    subst h1'
    subst h2'
    have hk : keep_entry ⟨some t, some mp⟩ = true := by
      simp [keep_entry]
      exact ⟨h3, h4⟩
    rw [if_pos hk]
    rfl

lemma collect_entry_nonzero (c : String) (e : SettlementEntry) (r : String × ℤ × ℚ)
    (h : (if keep_entry e then some (c, e.timestamp.getD 0, e.mark_price.getD 0) else none)
      = some r) :
    r.2.1 ≠ 0 ∧ r.2.2 ≠ 0 := by
  by_cases hk : keep_entry e = true
  · rcases e with ⟨_ | t, _ | mp⟩
    · exact absurd hk (by simp [keep_entry])
    · exact absurd hk (by simp [keep_entry])
    · exact absurd hk (by simp [keep_entry])
    have hkk : t ≠ 0 ∧ mp ≠ 0 := by simpa [keep_entry] using hk
    rw [if_pos hk] at h
    have h' := Option.some.inj h
    rw [← h']
    exact hkk
  · rw [if_neg hk] at h
    exact absurd h (by simp)

lemma merged_cell_zero_iff (recs : List (ℤ × ℚ)) (ts : ℤ)
    (hnz : ∀ r ∈ recs, r.2 ≠ 0) :
    merged_cell recs ts = 0 ↔ ∀ r ∈ recs, r.1 ≠ ts := by
  unfold merged_cell lastLookup
  rcases hl : (recs.filter (fun r => r.1 == ts)).getLast? with _ | r
  · rw [hl]
    have hfil : recs.filter (fun r => r.1 == ts) = [] := List.getLast?_eq_none_iff.mp hl
    have hall : ∀ r ∈ recs, r.1 ≠ ts := by
      intro r hr
      have := List.filter_eq_nil_iff.mp hfil r hr
      simpa using this
    exact ⟨fun _ => hall, fun _ => rfl⟩
  · rw [hl]
    have hmem : r ∈ recs.filter (fun q => q.1 == ts) := List.mem_of_getLast?_eq_some hl
    have hmem' := List.mem_filter.mp hmem
    have hts : r.1 = ts := by simpa using hmem'.2
    have hrnz : r.2 ≠ 0 := hnz r hmem'.1
    constructor
    · intro h0
      exact absurd (show r.2 = 0 from h0) hrnz
    · intro hall
      exact absurd hts (hall r hmem'.1)

/-- C10: `collect_data` keeps a settlement entry iff its timestamp and its
mark price are both present and nonzero (`if timestamp and price:` — Python
truthiness); hence every collected price is nonzero, and a `0` cell of the
merged table (after `fillna(0)`) means exactly "no observed settlement at
this timestamp", never an observed value. -/
theorem c10_zero_sentinel_never_collides (c : String)
    (settlements : List SettlementEntry) (ts : ℤ) (p : ℚ) :
    ((c, ts, p) ∈ collect_records c settlements
      ↔ ∃ e ∈ settlements,
          e.timestamp = some ts ∧ e.mark_price = some p ∧ ts ≠ 0 ∧ p ≠ 0) ∧
    (∀ r ∈ collect_records c settlements, r.2.1 ≠ 0 ∧ r.2.2 ≠ 0) ∧
    (merged_cell ((collect_records c settlements).map (fun r => r.2)) ts = 0
      ↔ ∀ r ∈ (collect_records c settlements).map (fun r => r.2), r.1 ≠ ts) := by
  have h2 : ∀ r ∈ collect_records c settlements, r.2.1 ≠ 0 ∧ r.2.2 ≠ 0 := by
    intro r hr
    obtain ⟨e, he, hfe⟩ := List.mem_filterMap.mp hr
    exact collect_entry_nonzero c e r hfe
  refine ⟨?_, h2, ?_⟩
  · unfold collect_records
    rw [List.mem_filterMap]
    constructor
    · rintro ⟨e, he, hfe⟩
      exact ⟨e, he, (collect_entry_eq c e ts p).mp hfe⟩
    · rintro ⟨e, he, hprops⟩
      exact ⟨e, he, (collect_entry_eq c e ts p).mpr hprops⟩
  · apply merged_cell_zero_iff
    intro q hq
    obtain ⟨r, hr, rfl⟩ := List.mem_map.mp hq
    exact (h2 r hr).2

/-- Witness for C10: a concrete settlement batch; the entry with both fields
present and nonzero is collected. -/
theorem c10_zero_sentinel_never_collides_witness :
    ("BTC", (5 : ℤ), (7 : ℚ)) ∈ collect_records "BTC"
      [⟨some 5, some 7⟩, ⟨some 6, some 0⟩, ⟨some 0, some 3⟩, ⟨none, some 4⟩, ⟨some 8, none⟩] :=
  (c10_zero_sentinel_never_collides "BTC"
    [⟨some 5, some 7⟩, ⟨some 6, some 0⟩, ⟨some 0, some 3⟩, ⟨none, some 4⟩, ⟨some 8, none⟩]
    5 7).1.mpr ⟨⟨some 5, some 7⟩, by simp, rfl, rfl, by decide, by decide⟩

end Deribit
